import Mathlib

/-!
Verification of the Email-Sender backend's AI-response normalization and
email rendering/delivery pipeline.

The JavaScript source is shallowly embedded over `List Char`:
`aiService.generateEmail`'s response-normalization section (fence stripping,
brace bounding, `JSON.parse`, regex field extraction, plain-text fallback)
and `emailService` (`validateEmail`, `validateEmailList`, `sendEmail`,
`formatEmailBody`, `stripHtml`).

JavaScript string/regex operations are modelled char-by-char; recursion that
consumes non-constant chunks of input uses an explicit fuel argument (always
called with enough fuel, so the fuel never runs out on any input).
-/

/-- Convert a Lean string literal to the `List Char` representation used
throughout this development. -/
def lc (s : String) : List Char := s.data

/-- The character class of JavaScript's regex `\s` / `String.prototype.trim`,
restricted to the code points that can occur in this pipeline. -/
def jsIsWs (c : Char) : Bool :=
  c = ' ' || c = '\t' || c = '\n' || c = '\r' || c = '\x0b' || c = '\x0c' ||
  c = '\u00A0' || c = '\uFEFF'

/-- JavaScript `String.prototype.trim`. -/
def jsTrim (s : List Char) : List Char :=
  ((s.dropWhile jsIsWs).reverse.dropWhile jsIsWs).reverse

/-- Boolean list-prefix test (explicit, to fix the evaluation semantics). -/
def prefixOfL : List Char → List Char → Bool
  | [], _ => true
  | _ :: _, [] => false
  | a :: as, b :: bs => a = b && prefixOfL as bs

/-- JavaScript `String.prototype.includes`: `pat` occurs as a contiguous
substring of `s`. -/
def containsSub (pat : List Char) : List Char → Bool
  | [] => pat.isEmpty
  | c :: rest => prefixOfL pat (c :: rest) || containsSub pat rest

/-- JavaScript `String.prototype.indexOf` for a single character. -/
def indexOfChar (ch : Char) : List Char → Option Nat
  | [] => none
  | c :: rest =>
    if c = ch then some 0
    else (indexOfChar ch rest).map (· + 1)

/-- JavaScript `String.prototype.lastIndexOf` for a single character. -/
def lastIndexOfChar (ch : Char) (s : List Char) : Option Nat :=
  (indexOfChar ch s.reverse).map (fun i => s.length - 1 - i)

/-- JavaScript `String.prototype.substring`: clamps and swaps its two
indices. -/
def jsSubstring (s : List Char) (a b : Nat) : List Char :=
  (s.take (max a b)).drop (min a b)

/-- One pass of JavaScript `str.replace(pat-regex, '')` for a *literal*
pattern, global flag, non-overlapping, scanning left to right.  `repl` is the
replacement.  Fuel-driven; the wrapper supplies `s.length + 1` fuel. -/
def replaceAllGo (pat repl : List Char) : Nat → List Char → List Char
  | _, [] => []
  | 0, s => s
  | fuel + 1, c :: rest =>
    if !pat.isEmpty && prefixOfL pat (c :: rest) then
      repl ++ replaceAllGo pat repl fuel ((c :: rest).drop pat.length)
    else c :: replaceAllGo pat repl fuel rest

/-- JavaScript `str.replace(/lit/g, repl)` for a literal pattern `lit`. -/
def replaceAllL (pat repl s : List Char) : List Char :=
  replaceAllGo pat repl (s.length + 1) s

/-- JavaScript `str.replace(/lit\s*/g, '')`: every occurrence of the literal
`pat` together with the maximal whitespace run following it is removed. -/
def replacePatWsGo (pat : List Char) : Nat → List Char → List Char
  | _, [] => []
  | 0, s => s
  | fuel + 1, c :: rest =>
    if prefixOfL pat (c :: rest) then
      replacePatWsGo pat fuel (((c :: rest).drop pat.length).dropWhile jsIsWs)
    else c :: replacePatWsGo pat fuel rest

/-- Wrapper for `replacePatWsGo` with sufficient fuel. -/
def replacePatWs (pat s : List Char) : List Char :=
  replacePatWsGo pat (s.length + 1) s

/-- JavaScript `str.replace(/```\s*$/g, '')`: if some position starts a
literal ``` whose remaining suffix is all whitespace, everything from the
leftmost such position is removed (the match necessarily extends to the end
of the string because of the `$` anchor). -/
def replaceTailFence : List Char → List Char
  | [] => []
  | c :: rest =>
    if prefixOfL (lc "```") (c :: rest) && ((c :: rest).drop 3).all jsIsWs then []
    else c :: replaceTailFence rest

/-- JavaScript `str.replace(/^["']|["']$/g, '')`: remove one leading and one
trailing quote character (double or single). -/
def stripQuotes (s : List Char) : List Char :=
  let s1 := match s with
    | c :: rest => if c = '"' || c = '\'' then rest else s
    | [] => []
  match s1.getLast? with
  | some c => if c = '"' || c = '\'' then s1.dropLast else s1
  | none => s1

/-- JavaScript `str.replace(/[{}]/g, '')`. -/
def removeBraces (s : List Char) : List Char :=
  s.filter (fun c => !(c = '\x7b' || c = '\x7d'))

/-- JavaScript `str.split('\n')`. -/
def splitOnNl : List Char → List (List Char)
  | [] => [[]]
  | c :: rest =>
    if c = '\n' then [] :: splitOnNl rest
    else
      match splitOnNl rest with
      | [] => [[c]]
      | l :: ls => (c :: l) :: ls

/-- JavaScript `arr.join(sep)`. -/
def intercalateL (sep : List Char) : List (List Char) → List Char
  | [] => []
  | [x] => x
  | x :: xs => x ++ sep ++ intercalateL sep xs

/-- ASCII lowering, the fragment of `String.prototype.toLowerCase` this
pipeline exercises. -/
def asciiLower (c : Char) : Char :=
  if 'A' ≤ c && c ≤ 'Z' then Char.ofNat (c.toNat + 32) else c

/-- Lower a whole string. -/
def asciiLowerL (s : List Char) : List Char := s.map asciiLower

/-! ### A model of JavaScript `JSON.parse`

The normalizer and the body formatter both call `JSON.parse`.  The parser
below implements the JSON grammar (RFC 8259) as `JSON.parse` accepts it:
object/array/string/number/true/false/null, `"` strings with the standard
escapes, no unescaped control characters inside strings, no trailing commas,
only space/tab/newline/carriage-return as inter-token whitespace, and no
trailing garbage.  Numbers keep their lexeme (their numeric value is never
needed, only truthiness and stringification). -/

/-- A parsed JSON value. -/
inductive Json where
  | null : Json
  | bool (b : Bool) : Json
  | num (lexeme : List Char) : Json
  | str (s : List Char) : Json
  | arr (elems : List Json) : Json
  | obj (members : List (List Char × Json)) : Json

/-- JSON inter-token whitespace. -/
def jsonWs (c : Char) : Bool :=
  c = ' ' || c = '\t' || c = '\n' || c = '\r'

/-- Skip JSON whitespace. -/
def skipJsonWs (s : List Char) : List Char := s.dropWhile jsonWs

/-- Hex digit value (by code point: `0`–`9` are 48–57, `a`–`f` are 97–102,
`A`–`F` are 65–70). -/
def hexVal (c : Char) : Option Nat :=
  let n := c.toNat
  if 48 ≤ n && n ≤ 57 then some (n - 48)
  else if 97 ≤ n && n ≤ 102 then some (n - 87)
  else if 65 ≤ n && n ≤ 70 then some (n - 55)
  else none

/-- Single-character JSON string escapes. -/
def escChar (c : Char) : Option Char :=
  if c = '"' then some '"'
  else if c = '\\' then some '\\'
  else if c = '/' then some '/'
  else if c = 'b' then some '\x08'
  else if c = 'f' then some '\x0c'
  else if c = 'n' then some '\n'
  else if c = 'r' then some '\r'
  else if c = 't' then some '\t'
  else none

/-- Parse the body of a JSON string (after the opening quote), returning the
decoded characters and the input after the closing quote.  Unescaped control
characters are rejected, as `JSON.parse` rejects them.  A `\uXXXX` escape
that does not denote a valid Unicode scalar value decodes to `'\x00'` (the
only divergence from JavaScript, which would keep a lone UTF-16 surrogate). -/
def parseStrBody : List Char → Option (List Char × List Char)
  | [] => none
  | '"' :: rest => some ([], rest)
  | '\\' :: 'u' :: h1 :: h2 :: h3 :: h4 :: r =>
    match hexVal h1, hexVal h2, hexVal h3, hexVal h4 with
    | some a, some b, some c, some d =>
      (parseStrBody r).map
        (fun p => (Char.ofNat (((a * 16 + b) * 16 + c) * 16 + d) :: p.1, p.2))
    | _, _, _, _ => none
  | '\\' :: e :: r =>
    match escChar e with
    | some ec => (parseStrBody r).map (fun p => (ec :: p.1, p.2))
    | none => none
  | '\\' :: [] => none
  | c :: rest =>
    if c.toNat < 32 then none
    else (parseStrBody rest).map (fun p => (c :: p.1, p.2))

/-- Decimal digit test. -/
def isDigitC (c : Char) : Bool := '0' ≤ c && c ≤ '9'

/-- Parse a JSON number lexeme: `-? (0 | [1-9][0-9]*) (\.[0-9]+)?
([eE][+-]?[0-9]+)?`.  Returns the lexeme and the rest of the input. -/
def parseNumber (s : List Char) : Option (List Char × List Char) :=
  let (sgn, r1) := match s with
    | '-' :: r => ([('-' : Char)], r)
    | _ => ([], s)
  match r1 with
  | [] => none
  | c :: _ =>
    if !isDigitC c then none
    else
      let intPart := if c = '0' then ['0'] else r1.takeWhile isDigitC
      let r2 := r1.drop intPart.length
      match r2 with
      | '.' :: r3 =>
        let fracPart := r3.takeWhile isDigitC
        if fracPart.isEmpty then none
        else
          let r4 := r3.drop fracPart.length
          match r4 with
          | e :: r5 =>
            if e = 'e' || e = 'E' then
              let (esgn, r6) := match r5 with
                | '+' :: r => (['+'], r)
                | '-' :: r => ([('-' : Char)], r)
                | _ => (([] : List Char), r5)
              let expPart := r6.takeWhile isDigitC
              if expPart.isEmpty then none
              else some (sgn ++ intPart ++ '.' :: fracPart ++ e :: esgn ++ expPart,
                         r6.drop expPart.length)
            else some (sgn ++ intPart ++ '.' :: fracPart, r4)
          | [] => some (sgn ++ intPart ++ '.' :: fracPart, r4)
      | e :: r3 =>
        if e = 'e' || e = 'E' then
          let (esgn, r4) := match r3 with
            | '+' :: r => (['+'], r)
            | '-' :: r => ([('-' : Char)], r)
            | _ => (([] : List Char), r3)
          let expPart := r4.takeWhile isDigitC
          if expPart.isEmpty then none
          else some (sgn ++ intPart ++ e :: esgn ++ expPart, r4.drop expPart.length)
        else some (sgn ++ intPart, r2)
      | [] => some (sgn ++ intPart, r2)

/-- Parsing mode of the recursive-descent core: a single value, the members
of an object (just after `{`-plus-whitespace when at least one member is
required, or just after a `,`), or the elements of an array. -/
inductive PMode where
  | val : PMode
  | objMems : PMode
  | arrElems : PMode
deriving DecidableEq, Repr

/-- Result of one `parseCore` call, tagged by mode. -/
inductive PRes where
  | v (j : Json) (rest : List Char) : PRes
  | mems (ms : List (List Char × Json)) (rest : List Char) : PRes
  | elems (es : List Json) (rest : List Char) : PRes

/-- Fuel-driven recursive-descent JSON parser.  Every recursive call uses one
unit of fuel and every unit of fuel is accompanied by at least one consumed
input character every two calls, so `2 * length + 8` fuel (supplied by
`jsonParse`) never runs out. -/
def parseCore : Nat → PMode → List Char → Option PRes
  | 0, _, _ => none
  | fuel + 1, PMode.val, s =>
    match s with
    | [] => none
    | '\x7b' :: rest =>
      let r := skipJsonWs rest
      (match r with
       | '\x7d' :: r2 => some (PRes.v (Json.obj []) r2)
       | _ =>
         match parseCore fuel PMode.objMems r with
         | some (PRes.mems ms rest2) => some (PRes.v (Json.obj ms) rest2)
         | _ => none)
    | '[' :: rest =>
      let r := skipJsonWs rest
      (match r with
       | ']' :: r2 => some (PRes.v (Json.arr []) r2)
       | _ =>
         match parseCore fuel PMode.arrElems r with
         | some (PRes.elems es rest2) => some (PRes.v (Json.arr es) rest2)
         | _ => none)
    | '"' :: rest =>
      (parseStrBody rest).map (fun p => PRes.v (Json.str p.1) p.2)
    | 't' :: rest =>
      if prefixOfL (lc "rue") rest then some (PRes.v (Json.bool true) (rest.drop 3))
      else none
    | 'f' :: rest =>
      if prefixOfL (lc "alse") rest then some (PRes.v (Json.bool false) (rest.drop 4))
      else none
    | 'n' :: rest =>
      if prefixOfL (lc "ull") rest then some (PRes.v Json.null (rest.drop 3))
      else none
    | c :: _ =>
      if c = '-' || isDigitC c then
        (parseNumber s).map (fun p => PRes.v (Json.num p.1) p.2)
      else none
  | fuel + 1, PMode.objMems, s =>
    match s with
    | '"' :: rest =>
      (match parseStrBody rest with
       | some (key, r1) =>
         (match skipJsonWs r1 with
          | ':' :: r3 =>
            (match parseCore fuel PMode.val (skipJsonWs r3) with
             | some (PRes.v v r4) =>
               (match skipJsonWs r4 with
                | ',' :: r6 =>
                  (match parseCore fuel PMode.objMems (skipJsonWs r6) with
                   | some (PRes.mems ms r7) => some (PRes.mems ((key, v) :: ms) r7)
                   | _ => none)
                | '\x7d' :: r6 => some (PRes.mems [(key, v)] r6)
                | _ => none)
             | _ => none)
          | _ => none)
       | none => none)
    | _ => none
  | fuel + 1, PMode.arrElems, s =>
    match parseCore fuel PMode.val s with
    | some (PRes.v v r1) =>
      (match skipJsonWs r1 with
       | ',' :: r3 =>
         (match parseCore fuel PMode.arrElems (skipJsonWs r3) with
          | some (PRes.elems es r4) => some (PRes.elems (v :: es) r4)
          | _ => none)
       | ']' :: r3 => some (PRes.elems [v] r3)
       | _ => none)
    | _ => none

/-- JavaScript `JSON.parse`: `some` on success, `none` when `JSON.parse`
would throw a `SyntaxError`. -/
def jsonParse (s : List Char) : Option Json :=
  match parseCore (2 * s.length + 8) PMode.val (skipJsonWs s) with
  | some (PRes.v j rest) => if (skipJsonWs rest).isEmpty then some j else none
  | _ => none

/-- JavaScript property access `parsedValue[key]`: `some` when the value is
an object carrying the key (the *last* binding wins, as later duplicate keys
overwrite earlier ones in `JSON.parse`), `none` (JavaScript `undefined`)
otherwise. -/
def getField (j : Json) (key : List Char) : Option Json :=
  match j with
  | Json.obj ms => (ms.reverse.find? (fun p => p.1 == key)).map (fun p => p.2)
  | _ => none

/-- Whether a JSON number lexeme denotes zero: every mantissa digit is `0`
(the exponent cannot make a nonzero mantissa zero). -/
def numIsZero (lexeme : List Char) : Bool :=
  ((lexeme.takeWhile (fun c => !(c = 'e' || c = 'E'))).filter isDigitC).all (· = '0')

/-- JavaScript truthiness of a `JSON.parse` result. -/
def jsonTruthy : Json → Bool
  | Json.null => false
  | Json.bool b => b
  | Json.num lexeme => !numIsZero lexeme
  | Json.str s => !s.isEmpty
  | Json.arr _ => true
  | Json.obj _ => true

/-- JavaScript `String(value)` for values produced by `JSON.parse`, fuel-led
through nested arrays.  Numbers are rendered by their lexeme (exact ECMAScript
double-to-string formatting is out of scope; no claim exercises it), `null`
inside an array renders as the empty string, and objects render as
`[object Object]`, as in JavaScript. -/
def jsToStringGo : Nat → Json → List Char
  | _, Json.str s => s
  | _, Json.bool true => lc "true"
  | _, Json.bool false => lc "false"
  | _, Json.null => lc "null"
  | _, Json.num lexeme => lexeme
  | _, Json.obj _ => lc "[object Object]"
  | 0, Json.arr _ => []
  | fuel + 1, Json.arr es =>
    intercalateL (lc ",")
      (es.map (fun e => match e with
        | Json.null => []
        | x => jsToStringGo fuel x))

/-! ### `aiService.generateEmail` — response normalization

Embeds the pure normalization section of `generateEmail`: the code between
receiving the completion text (`.trim()`) and returning the
`{subject, body}` object.  The network call and logging are outside the
model; the thrown-and-immediately-caught "Body contains JSON structure"
error is modelled as the conditional branch it amounts to. -/

/-- The normalizer's result type: the `{subject, body}` object. -/
structure GeneratedEmail where
  subject : List Char
  body : List Char
deriving DecidableEq, Repr

/-- Steps 1–2 of the normalizer: trim, strip markdown code fences
(`response.replace(/```json\s*/g, '').replace(/```\s*$/g, '')` guarded by
`includes('```json')`, then the same for plain ``` fences), then slice from
the first `{` to the last `}` when both exist. -/
def preprocessResponse (raw : List Char) : List Char :=
  let response := jsTrim raw
  let response :=
    if containsSub (lc "```json") response then
      replaceTailFence (replacePatWs (lc "```json") response)
    else response
  let response :=
    if containsSub (lc "```") response then
      replaceTailFence (replacePatWs (lc "```") response)
    else response
  match indexOfChar '\x7b' response, lastIndexOfChar '\x7d' response with
  | some i, some j => jsSubstring response i (j + 1)
  | _, _ => response

/-- The capture of the field-extraction regex
`/"key"\s*:\s*"([^"]*(?:\\.[^"]*)*)"/` at one starting position.
With a backtracking engine the first success always takes the greedy
`[^"]*` route, so the capture is exactly the text between the opening quote
and the *next* quote character; the escaped-pair alternative is unreachable.
Fails when no closing quote follows. -/
def tryFieldAt (key : List Char) (s : List Char) : Option (List Char) :=
  let pat := '"' :: (key ++ ['"'])
  if prefixOfL pat s then
    let r := (s.drop pat.length).dropWhile jsIsWs
    match r with
    | ':' :: r1 =>
      (match r1.dropWhile jsIsWs with
       | '"' :: r2 =>
         let cap := r2.takeWhile (fun c => !(c = '"'))
         if (r2.drop cap.length).isEmpty then none else some cap
       | _ => none)
    | _ => none
  else none

/-- Leftmost match of the field-extraction regex: `str.match(...)`'s first
capture group. -/
def fieldCapture (key : List Char) : List Char → Option (List Char)
  | [] => none
  | c :: rest =>
    match tryFieldAt key (c :: rest) with
    | some cap => some cap
    | none => fieldCapture key rest

/-- JavaScript `line.replace(/subject:?\s*/i, '')` (non-global): remove the
leftmost case-insensitive occurrence of `subject`, an optional following
colon, and the following whitespace run. -/
def stripSubjectTag : List Char → List Char
  | [] => []
  | c :: rest =>
    if asciiLowerL ((c :: rest).take 7) = lc "subject" then
      let r := (c :: rest).drop 7
      let r := match r with
        | ':' :: r1 => r1
        | _ => r
      r.dropWhile jsIsWs
    else c :: stripSubjectTag rest

/-- The filtered line list of the plain-text fallback:
`response.split('\n').filter(line => line.trim())`. -/
def fallbackLines (response : List Char) : List (List Char) :=
  (splitOnNl response).filter (fun l => !(jsTrim l).isEmpty)

/-- Predicate selecting the subject line of the plain-text fallback:
`line.toLowerCase().includes('subject:')`. -/
def isSubjectLine (l : List Char) : Bool :=
  containsSub (lc "subject:") (asciiLowerL l)

/-- Steps 5 of the normalizer (plain-text fallback, the `else` branch when
the `"body"` regex found nothing): scan the non-blank lines for one
containing `subject:`; if found, strip the tag for the subject and rejoin
the remaining lines for the body; always strip wrapping quotes and all brace
characters from the body afterwards.  `subject` is the value computed before
the fallback (the `"subject"` capture or the placeholder). -/
def plainFallback (response : List Char) (subject : List Char) : GeneratedEmail :=
  let lines := fallbackLines response
  match lines.findIdx? isSubjectLine with
  | some i =>
    { subject := jsTrim (stripSubjectTag (lines.getD i [])),
      body := removeBraces (stripQuotes (jsTrim (intercalateL (lc "\n") (lines.eraseIdx i)))) }
  | none =>
    { subject := subject,
      body := removeBraces (stripQuotes (jsTrim response)) }

/-- Step 4 of the normalizer (the `catch` block): regex field extraction on
the (preprocessed) response, falling back to `plainFallback` when the
`"body"` regex yields no non-empty capture. -/
def extractFallback (response : List Char) : GeneratedEmail :=
  let subject :=
    match fieldCapture (lc "subject") response with
    | some cap =>
      if !cap.isEmpty then jsTrim (replaceAllL (lc "\\\"") (lc "\"") cap)
      else lc "Generated Email"
    | none => lc "Generated Email"
  match fieldCapture (lc "body") response with
  | some cap =>
    if !cap.isEmpty then
      { subject := subject,
        body := jsTrim (replaceAllL (lc "\\\"") (lc "\"")
                  (replaceAllL (lc "\\n") (lc "\n") cap)) }
    else plainFallback response subject
  | none => plainFallback response subject

/-- The cleaned subject of the successful-parse path:
`parsed.subject` when it is a string, else the placeholder; then
`.replace(/^["']|["']$/g, '').trim()`. -/
def parsedSubjectClean (parsed : Json) : List Char :=
  jsTrim (stripQuotes
    (match getField parsed (lc "subject") with
     | some (Json.str s) => s
     | _ => lc "Generated Email"))

/-- The cleaned body of the successful-parse path: `parsed.body` when it is
a string, else the whole response; then
`.replace(/^["']|["']$/g, '').replace(/\\n/g, '\n').trim()`. -/
def parsedBodyClean (parsed : Json) (response : List Char) : List Char :=
  jsTrim (replaceAllL (lc "\\n") (lc "\n")
    (stripQuotes
      (match getField parsed (lc "body") with
       | some (Json.str s) => s
       | _ => response)))

/-- The recursion guard of step 3:
`body.includes('"subject"') || body.includes('"body"')`. -/
def bodyGuard (body : List Char) : Bool :=
  containsSub (lc "\"subject\"") body || containsSub (lc "\"body\"") body

/-- The response-normalization pipeline of `aiService.generateEmail`
(`normalize` in the specification): preprocess, strict JSON parse, clean
fields, re-enter field extraction when the parse fails or the recursion
guard fires. -/
def generateEmailNormalize (raw : List Char) : GeneratedEmail :=
  let response := preprocessResponse raw
  match jsonParse response with
  | some parsed =>
    let body := parsedBodyClean parsed response
    if bodyGuard body then extractFallback response
    else { subject := parsedSubjectClean parsed, body := body }
  | none => extractFallback response

/-! ### `emailService` — validation, rendering, delivery -/

/-- Split at the first occurrence of a character. -/
def splitAtFirst (ch : Char) : List Char → Option (List Char × List Char)
  | [] => none
  | c :: rest =>
    if c = ch then some ([], rest)
    else (splitAtFirst ch rest).map (fun p => (c :: p.1, p.2))

/-- Whether a character occurs in a list. -/
def containsChar (ch : Char) (s : List Char) : Bool := s.any (· = ch)

/-- A `.` with at least one character before it and one after it. -/
def hasMidDot (domain : List Char) : Bool :=
  match domain with
  | [] => false
  | _ :: rest => containsChar '.' rest.dropLast

/-- `emailService.validateEmail`: the regex
`/^[^\s@]+@[^\s@]+\.[^\s@]+$/`.  Since `[^\s@]` cannot match `@`, the `@` of
the pattern aligns with the first `@` of the string; the part before it must
be non-empty without whitespace, the part after must be free of whitespace
and `@` and contain a `.` with at least one character on each side. -/
def validateEmail (email : List Char) : Bool :=
  match splitAtFirst '@' email with
  | none => false
  | some (locPart, domain) =>
    !locPart.isEmpty && locPart.all (fun c => !jsIsWs c) &&
    domain.all (fun c => !jsIsWs c && !(c = '@')) && hasMidDot domain

/-- `emailService.validateEmailList`, by position (`forEach` index): trims
each entry, records an error for empty or invalid entries (with the same
message texts as the source), collects the trimmed valid ones. -/
def validateEmailGo : Nat → List (List Char) → List (List Char) × List (List Char)
  | _, [] => ([], [])
  | idx, email :: rest =>
    let trimmed := jsTrim email
    let p := validateEmailGo (idx + 1) rest
    if trimmed.isEmpty then
      (p.1, (lc "Email at position " ++ Nat.toDigits 10 (idx + 1) ++ lc " is empty") :: p.2)
    else if !validateEmail trimmed then
      (p.1, (lc "Invalid email format: " ++ trimmed) :: p.2)
    else (trimmed :: p.1, p.2)

/-- `emailService.validateEmailList`: returns `(validEmails, errors)`. -/
def validateEmailList (emails : List (List Char)) : List (List Char) × List (List Char) :=
  validateEmailGo 0 emails

/-- `str.trim().startsWith('{')`. -/
def startsWithBrace (s : List Char) : Bool :=
  match s with
  | '\x7b' :: _ => true
  | _ => false

/-- `str.trim().endsWith('}')`. -/
def endsWithBrace (s : List Char) : Bool :=
  match s.getLast? with
  | some '\x7d' => true
  | _ => false

/-- The tag-removal half of `stripHtml`: `html.replace(/<[^>]*>/g, '')`.
Each match runs from a `<` to the first following `>` (there is none when no
`>` remains, in which case the `<` stays).  Fuel-driven, one unit per input
character. -/
def stripTagsGo : Nat → List Char → List Char
  | _, [] => []
  | 0, s => s
  | fuel + 1, c :: rest =>
    if c = '<' && containsChar '>' rest then
      stripTagsGo fuel ((rest.dropWhile (fun d => !(d = '>'))).drop 1)
    else c :: stripTagsGo fuel rest

/-- `emailService.stripHtml`: strip markup tags, then replace every
`&nbsp;` entity by an ordinary space. -/
def stripHtml (s : List Char) : List Char :=
  replaceAllL (lc "&nbsp;") (lc " ") (stripTagsGo (s.length + 1) s)

/-- `emailService.formatEmailBody` on a string body (every caller in the
repository passes a string; the `typeof body === 'object'` branch is
unreachable for string input).  The emergency JSON-artifact extraction, the
brace-delimited `JSON.parse` attempt with its truthiness checks, and the
final plain-text→HTML conversion are modelled in source order.  When the
parsed `body` field is a non-string truthy value the source later coerces it
with `String(...)` (line `emailBody = String(emailBody)`), modelled by
`jsToStringGo` at the assignment. -/
def formatEmailBody (body : List Char) : List Char :=
  -- Emergency fix (source lines 131–142)
  let emailBody :=
    if containsSub (lc "\"subject\"") body && containsSub (lc "\"body\"") body then
      match fieldCapture (lc "body") body with
      | some cap =>
        if !cap.isEmpty then
          replaceAllL (lc "\\\"") (lc "\"") (replaceAllL (lc "\\n") (lc "\n") cap)
        else body
      | none => body
    else body
  -- JSON-looking string body (source lines 155–173)
  let t := jsTrim body
  let emailBody :=
    if startsWithBrace t && endsWithBrace t then
      match jsonParse body with
      | some parsed =>
        (match getField parsed (lc "body") with
         | some bv =>
           if jsonTruthy bv then
             match bv with
             | Json.str s => s
             | _ => jsToStringGo body.length bv
           else emailBody
         | none =>
           match getField parsed (lc "subject") with
           | some sv =>
             if jsonTruthy sv then lc "Error: Parsed email missing body content"
             else emailBody
           | none => emailBody)
      | none =>
        replaceAllL (lc "\\n") (lc "\n") (stripQuotes body)
    else emailBody
  -- Plain text → HTML (source lines 182–187)
  replaceAllL (lc "<p></p>") []
    ((lc "<p>" ++
        replaceAllL (lc "\n") (lc "<br>")
          (replaceAllL (lc "\n\n") (lc "</p><p>") emailBody)) ++ lc "</p>")

/-- The `(html, text)` pair `sendEmail` builds for every message
(source lines 81–82): `html` is `formatEmailBody(body)`, `text` is
`stripHtml(body)` applied to the *input* body. -/
def render (body : List Char) : List Char × List Char :=
  (formatEmailBody body, stripHtml body)

/-- A per-recipient success record (`results` entries of the report). -/
structure DeliverySuccess where
  email : List Char
  messageId : List Char
deriving DecidableEq, Repr

/-- A per-recipient failure record (`failures` entries of the report). -/
structure DeliveryFailure where
  email : List Char
  error : List Char
deriving DecidableEq, Repr

/-- The object `sendEmail` returns on success. -/
structure DeliveryReport where
  success : Bool
  totalRecipients : Nat
  successful : Nat
  failed : Nat
  results : List DeliverySuccess
  failures : List DeliveryFailure
deriving DecidableEq, Repr

/-- The errors `sendEmail` can throw before or instead of producing a
report. -/
inductive SendError where
  | notConfigured (msg : List Char) : SendError
  | validationFailed (msg : List Char) : SendError
  | noValidRecipients (msg : List Char) : SendError
  | transportError (msg : List Char) : SendError
deriving DecidableEq, Repr

/-- The `mailOptions` object built for each recipient. -/
structure MailOptions where
  fromField : List Char
  toAddr : List Char
  subject : List Char
  html : List Char
  text : List Char
deriving DecidableEq, Repr

/-- The nodemailer transporter, abstracted: configuration state, the
`verify()` connectivity check, and per-message `sendMail` (error message or
message id).  `user` is the configured sender address (`EMAIL_USER`). -/
structure Transport where
  configured : Bool
  user : List Char
  verify : Except (List Char) Unit
  deliver : MailOptions → Except (List Char) (List Char)

/-- One observable transport interaction, recorded so that "no transport
call is made" is a provable statement. -/
inductive TransportCall where
  | verifyCall : TransportCall
  | deliverCall (opts : MailOptions) : TransportCall

/-- The `from`/`to`/`subject`/`html`/`text` object of source lines 77–83. -/
def mkOpts (t : Transport) (senderName subject body email : List Char) : MailOptions :=
  { fromField := '"' :: (senderName ++ lc "\" <" ++ t.user ++ lc ">"),
    toAddr := email,
    subject := subject,
    html := formatEmailBody body,
    text := stripHtml body }

/-- The per-recipient loop of `sendEmail` (source lines 75–98): each
delivery is attempted independently; successes and failures land in separate
lists, in recipient order. -/
def deliverLoop (t : Transport) (senderName subject body : List Char) :
    List (List Char) → List DeliverySuccess × List DeliveryFailure
  | [] => ([], [])
  | email :: rest =>
    let p := deliverLoop t senderName subject body rest
    match t.deliver (mkOpts t senderName subject body email) with
    | Except.ok mid => ({ email := email, messageId := mid } :: p.1, p.2)
    | Except.error m => (p.1, { email := email, error := m } :: p.2)

/-- The validation-error message: `Email validation failed: ` followed by
every error, comma-joined (source line 60). -/
def validationMessage (errors : List (List Char)) : List Char :=
  lc "Email validation failed: " ++ intercalateL (lc ", ") errors

/-- `emailService.sendEmail`: configuration check, recipient validation
(fail fast, before any transport interaction), connectivity check, then the
per-recipient loop; returns the thrown error or the delivery report, paired
with the list of transport interactions that occurred. -/
def sendEmail (t : Transport) (recipients : List (List Char))
    (subject body senderName : List Char) :
    Except SendError DeliveryReport × List TransportCall :=
  if !t.configured then
    (Except.error (SendError.notConfigured
      (lc "Email service is not configured. Please check your environment variables.")), [])
  else
    let v := validateEmailList recipients
    if !v.2.isEmpty then
      (Except.error (SendError.validationFailed (validationMessage v.2)), [])
    else if v.1.isEmpty then
      (Except.error (SendError.noValidRecipients (lc "No valid recipients found")), [])
    else
      match t.verify with
      | Except.error e => (Except.error (SendError.transportError e), [TransportCall.verifyCall])
      | Except.ok _ =>
        let p := deliverLoop t senderName subject body v.1
        (Except.ok
          { success := true,
            totalRecipients := v.1.length,
            successful := p.1.length,
            failed := p.2.length,
            results := p.1,
            failures := p.2 },
         TransportCall.verifyCall ::
           v.1.map (fun e => TransportCall.deliverCall (mkOpts t senderName subject body e)))

/-! ### Specification-side definitions (for refinement comparisons) -/

/-- Modelled from the spec's words, §4.2 HTML rendering rule: double line
break → `</p><p>`, remaining single line break → `<br>`, wrap in
`<p>`…`</p>`, remove every empty paragraph `<p></p>`. -/
def specHtmlRule (b : List Char) : List Char :=
  replaceAllL (lc "<p></p>") []
    ((lc "<p>" ++
        replaceAllL (lc "\n") (lc "<br>")
          (replaceAllL (lc "\n\n") (lc "</p><p>") b)) ++ lc "</p>")

/-- Remove every whitespace character (for "equal up to whitespace"
comparisons). -/
def stripAllWs (s : List Char) : List Char := s.filter (fun c => !jsIsWs c)

/-! ### Claims about the body renderer -/

/-- C5 counterexample.  The claim states that for every body string the
plain-text component of `render` equals the HTML component with tags
stripped and `&nbsp;` replaced.  For the body `"a\n\nb"` the code's text
component is `"a\n\nb"` (it strips the *input*, source line 82), while
stripping the HTML component `"<p>a</p><p>b</p>"` gives `"ab"`. -/
theorem claim5_counterexample :
    (render (lc "a\n\nb")).2 ≠ stripHtml ((render (lc "a\n\nb")).1) := by decide

/-- C5 as amended: the plain-text component produced by `render` equals the
*input* body with all markup tags stripped and every `&nbsp;` entity
replaced by an ordinary space (i.e. `stripHtml` is applied to the input
body, not to the HTML output of the same call). -/
theorem claim5_amended (b : List Char) : (render b).2 = stripHtml b := rfl

/-- C6: for every fully normalized plain-text body — one that triggers
neither of the renderer's defensive JSON branches, i.e. it does not contain
both `"subject"` and `"body"`, and does not look brace-delimited after
trimming — the HTML output of `render` is exactly the spec's rule: `\n\n` →
`</p><p>`, remaining `\n` → `<br>`, wrap in `<p>`…`</p>`, drop every
`<p></p>`. -/
theorem claim6_html_rule (b : List Char)
    (h1 : (containsSub (lc "\"subject\"") b && containsSub (lc "\"body\"") b) = false)
    (h2 : (startsWithBrace (jsTrim b) && endsWithBrace (jsTrim b)) = false) :
    (render b).1 = specHtmlRule b := by
  show formatEmailBody b = specHtmlRule b
  unfold formatEmailBody specHtmlRule
  simp only [h1, Bool.false_eq_true, if_false, h2]

/-- C6 witness: the spec's own example.  `render("Para one.\n\nPara two.")`
yields html `"<p>Para one.</p><p>Para two.</p>"` and text
`"Para one.\n\nPara two."`. -/
theorem claim6_witness :
    (render (lc "Para one.\n\nPara two.")).1 = specHtmlRule (lc "Para one.\n\nPara two.") ∧
    (render (lc "Para one.\n\nPara two.")).1 = lc "<p>Para one.</p><p>Para two.</p>" ∧
    (render (lc "Para one.\n\nPara two.")).2 = lc "Para one.\n\nPara two." := by
  refine ⟨claim6_html_rule (lc "Para one.\n\nPara two.") (by decide) (by decide), ?_, ?_⟩
  · decide
  · decide

/-- C9 counterexample.  The claim states
`render(text(render(b))) == render(b)` up to whitespace for every body.  For
`b = "<br>"` the text of `render b` is `""` (the tag is stripped), so the
left side renders the empty body to html `""`, while `render b` has html
`"<p><br></p>"`; they differ beyond whitespace. -/
theorem claim9_counterexample :
    stripAllWs ((render ((render (lc "<br>")).2)).1) ≠
      stripAllWs ((render (lc "<br>")).1) := by decide

/-- C9 as amended: for every body that `stripHtml` leaves unchanged (no
markup tags removed, no `&nbsp;`), re-rendering the rendered-and-stripped
body is idempotent, and exactly so: `render (text (render b)) = render b`. -/
theorem claim9_amended (b : List Char) (h : stripHtml b = b) :
    render ((render b).2) = render b := by
  show render (stripHtml b) = render b
  rw [h]

/-- C9 witness: idempotence at the concrete tag-free body `"hello\nworld"`. -/
theorem claim9_witness :
    stripHtml (lc "hello\nworld") = lc "hello\nworld" ∧
    render ((render (lc "hello\nworld")).2) = render (lc "hello\nworld") :=
  ⟨by decide, claim9_amended (lc "hello\nworld") (by decide)⟩

/-! ### Claims about the response normalizer -/

/-- C8: a clean JSON envelope, bare or wrapped in ```json fences, is parsed
into its `subject` and `body` fields, with escaped `\n` sequences turned
into real line breaks.  The first input is the literal text
`{"subject":"Hi","body":"Line1\nLine2"}` (backslash-n being two characters),
the second is the same envelope inside markdown code fences. -/
theorem claim8_json_examples :
    generateEmailNormalize (lc "\x7b\"subject\":\"Hi\",\"body\":\"Line1\\nLine2\"\x7d") =
      { subject := lc "Hi", body := lc "Line1\nLine2" } ∧
    generateEmailNormalize (lc "```json\n\x7b\"subject\":\"S\",\"body\":\"B\"\x7d\n```") =
      { subject := lc "S", body := lc "B" } := by
  constructor
  · decide
  · decide

/-- C1 counterexample.  The claim states that the subject returned by
`normalize` is always non-empty.  The raw completion
`{"subject":"","body":"hi"}` parses cleanly, its `subject` field is a
string, so it is kept — and it is empty. -/
theorem claim1_counterexample :
    (generateEmailNormalize (lc "\x7b\"subject\":\"\",\"body\":\"hi\"\x7d")).subject = [] := by
  decide

/-- C1 as amended: `normalize` is total (a function in this model) and,
whenever extraction fails entirely — the strict JSON parse of the
preprocessed text fails, the `"subject"` regex yields no non-empty capture,
and no non-blank line contains `subject:` — the returned subject is the
fixed non-empty placeholder `Generated Email`.  (The subject can, however,
be empty when the raw text itself supplies an empty subject, which is what
falsifies the original claim.) -/
theorem claim1_amended (raw : List Char)
    (h1 : jsonParse (preprocessResponse raw) = none)
    (h2 : (fieldCapture (lc "subject") (preprocessResponse raw)).getD [] = [])
    (h3 : (fallbackLines (preprocessResponse raw)).findIdx? isSubjectLine = none) :
    (generateEmailNormalize raw).subject = lc "Generated Email" := by
  unfold generateEmailNormalize
  simp only [h1]
  cases e : fieldCapture (lc "subject") (preprocessResponse raw) with
  | none =>
    cases e2 : fieldCapture (lc "body") (preprocessResponse raw) with
    | none => simp [extractFallback, plainFallback, e, e2, h3]
    | some cap =>
      cases hc : cap.isEmpty <;>
        simp [extractFallback, plainFallback, e, e2, hc, h3]
  | some cap =>
    have hcap : cap = [] := by rw [e] at h2; simpa using h2
    subst hcap
    cases e2 : fieldCapture (lc "body") (preprocessResponse raw) with
    | none => simp [extractFallback, plainFallback, e, e2, h3]
    | some cap2 =>
      cases hc : cap2.isEmpty <;>
        simp [extractFallback, plainFallback, e, e2, hc, h3]

/-- C1 amended witness: the plain completion `hello` has no JSON, no
`"subject"` key and no `subject:` line, and gets the placeholder subject. -/
theorem claim1_amended_witness :
    (jsonParse (preprocessResponse (lc "hello")) = none ∧
      (fieldCapture (lc "subject") (preprocessResponse (lc "hello"))).getD [] = [] ∧
      (fallbackLines (preprocessResponse (lc "hello"))).findIdx? isSubjectLine = none) ∧
    (generateEmailNormalize (lc "hello")).subject = lc "Generated Email" :=
  ⟨⟨by rfl, by decide, by decide⟩,
   claim1_amended (lc "hello") (by rfl) (by decide) (by decide)⟩

/-- C2: whenever the strict JSON parse of the preprocessed text succeeds but
the cleaned-up extracted body still contains `"subject"` or `"body"` (the
recursion guard), the normalizer does not return the once-parsed body: its
result is exactly the result of regex field extraction (step 4 / the `catch`
block) applied to the preprocessed (fence-stripped, brace-bounded) text. -/
theorem claim2_guard_reenter (raw : List Char) (parsed : Json)
    (h1 : jsonParse (preprocessResponse raw) = some parsed)
    (h2 : bodyGuard (parsedBodyClean parsed (preprocessResponse raw)) = true) :
    generateEmailNormalize raw = extractFallback (preprocessResponse raw) := by
  unfold generateEmailNormalize
  simp only [h1, h2, if_true]

/-- C2 witness: the envelope `{"subject":"A","body":"x \"body\" y"}` parses,
and its body contains the substring `"body"`, so the guard fires and the
result equals regex extraction on the preprocessed text. -/
theorem claim2_witness :
    (jsonParse (preprocessResponse (lc "\x7b\"subject\":\"A\",\"body\":\"x \\\"body\\\" y\"\x7d")) =
        some (Json.obj [(lc "subject", Json.str (lc "A")),
                        (lc "body", Json.str (lc "x \"body\" y"))])) ∧
    generateEmailNormalize (lc "\x7b\"subject\":\"A\",\"body\":\"x \\\"body\\\" y\"\x7d") =
      extractFallback (preprocessResponse (lc "\x7b\"subject\":\"A\",\"body\":\"x \\\"body\\\" y\"\x7d")) :=
  ⟨by rfl,
   claim2_guard_reenter (lc "\x7b\"subject\":\"A\",\"body\":\"x \\\"body\\\" y\"\x7d")
     (Json.obj [(lc "subject", Json.str (lc "A")), (lc "body", Json.str (lc "x \"body\" y"))])
     (by rfl) (by decide)⟩

/-- C7 counterexample.  The claim states that in the plain-text fallback the
body is "the remaining lines rejoined".  For the raw text
`"Subject: Hello\nA\n\nB"` the remaining lines after removing the subject
line are `"A"`, `""`, `"B"`, which rejoined give `"A\n\nB"` — but the code
first drops blank lines, so `normalize` returns body `"A\nB"`. -/
theorem claim7_counterexample :
    generateEmailNormalize (lc "Subject: Hello\nA\n\nB") =
      { subject := lc "Hello", body := lc "A\nB" } ∧
    lc "A\nB" ≠ lc "A\n\nB" := by
  constructor
  · decide
  · decide

/-- C7 as amended: when no `"body"` key is found (the JSON parse of the
preprocessed text fails and the `"body"` regex captures nothing) and some
*non-blank* line contains `subject:` (case-insensitive), `normalize` takes
the first such line — with everything through the first `subject` token, an
optional colon and the following whitespace removed, then trimmed — as the
subject, and returns as body the remaining *non-blank* lines rejoined with
newlines, trimmed, with wrapping quote characters and all brace characters
removed. -/
theorem claim7_amended (raw : List Char) (i : Nat)
    (h1 : jsonParse (preprocessResponse raw) = none)
    (h2 : (fieldCapture (lc "body") (preprocessResponse raw)).getD [] = [])
    (h3 : (fallbackLines (preprocessResponse raw)).findIdx? isSubjectLine = some i) :
    generateEmailNormalize raw =
      { subject := jsTrim (stripSubjectTag
          ((fallbackLines (preprocessResponse raw)).getD i [])),
        body := removeBraces (stripQuotes (jsTrim (intercalateL (lc "\n")
          ((fallbackLines (preprocessResponse raw)).eraseIdx i)))) } := by
  unfold generateEmailNormalize
  simp only [h1]
  cases e2 : fieldCapture (lc "body") (preprocessResponse raw) with
  | none => simp [extractFallback, plainFallback, e2, h3]
  | some cap =>
    have hcap : cap = [] := by rw [e2] at h2; simpa using h2
    subst hcap
    simp [extractFallback, plainFallback, e2, h3]

/-- C7 amended witness: `"Subject: Hello\nWorld"` has no JSON and no
`"body"` key; line 0 is the subject line, and the amended extraction gives
subject `"Hello"` and body `"World"`. -/
theorem claim7_witness :
    (jsonParse (preprocessResponse (lc "Subject: Hello\nWorld")) = none ∧
      (fieldCapture (lc "body") (preprocessResponse (lc "Subject: Hello\nWorld"))).getD [] = [] ∧
      (fallbackLines (preprocessResponse (lc "Subject: Hello\nWorld"))).findIdx? isSubjectLine =
        some 0) ∧
    generateEmailNormalize (lc "Subject: Hello\nWorld") =
      { subject := jsTrim (stripSubjectTag
          ((fallbackLines (preprocessResponse (lc "Subject: Hello\nWorld"))).getD 0 [])),
        body := removeBraces (stripQuotes (jsTrim (intercalateL (lc "\n")
          ((fallbackLines (preprocessResponse (lc "Subject: Hello\nWorld"))).eraseIdx 0)))) } :=
  ⟨⟨by rfl, by decide, by decide⟩,
   claim7_amended (lc "Subject: Hello\nWorld") 0 (by rfl) (by decide) (by decide)⟩

/-! ### Claims about `sendEmail` -/

/-- A pattern is a Boolean prefix of itself followed by anything. -/
theorem prefixOfL_self_append (pat r : List Char) : prefixOfL pat (pat ++ r) = true := by
  induction pat with
  | nil => rfl
  | cons a as ih => simp [prefixOfL, ih]

/-- `containsSub` holds on a string that literally contains the pattern. -/
theorem containsSub_of_parts (pat l r : List Char) :
    containsSub pat (l ++ pat ++ r) = true := by
  induction l with
  | nil =>
    cases pat with
    | nil =>
      cases r with
      | nil => rfl
      | cons c cs => simp [containsSub, prefixOfL]
    | cons p ps => simp [containsSub, prefixOfL, prefixOfL_self_append]
  | cons c cs ih =>
    have ih2 : containsSub pat (cs ++ (pat ++ r)) = true := by
      simpa [List.append_assoc] using ih
    show containsSub pat (c :: (cs ++ pat ++ r)) = true
    simp [containsSub, List.append_assoc, ih2]

/-- Every element of a joined list occurs contiguously in the join. -/
theorem intercalateL_mem_parts (sep : List Char) (xs : List (List Char)) (x : List Char)
    (h : x ∈ xs) : ∃ l r, intercalateL sep xs = l ++ x ++ r := by
  induction xs with
  | nil => cases h
  | cons y ys ih =>
    cases h with
    | head =>
      cases ys with
      | nil => exact ⟨[], [], by simp [intercalateL]⟩
      | cons z zs => exact ⟨[], sep ++ intercalateL sep (z :: zs), by simp [intercalateL]⟩
    | tail _ hmem =>
      obtain ⟨l, r, hlr⟩ := ih hmem
      cases ys with
      | nil => cases hmem
      | cons z zs => exact ⟨y ++ sep ++ l, r, by simp [intercalateL, hlr]⟩

/-- The validation-failure message contains every individual error text. -/
theorem validationMessage_names (errs : List (List Char)) (er : List Char)
    (h : er ∈ errs) : containsSub er (validationMessage errs) = true := by
  obtain ⟨l, r, hlr⟩ := intercalateL_mem_parts (lc ", ") errs er h
  have : validationMessage errs = (lc "Email validation failed: " ++ l) ++ er ++ r := by
    simp [validationMessage, hlr]
  rw [this]
  exact containsSub_of_parts er (lc "Email validation failed: " ++ l) r

/-- C4: whenever the validated recipient list is empty or any entry is
invalid, `sendEmail` performs no transport interaction at all (neither the
connectivity check nor any delivery), and throws: a validation error whose
message contains every individual validation error (naming every invalid
entry) when there are invalid entries, and the no-valid-recipients error
when the list is empty with no invalid entries. -/
theorem claim4_fail_fast (t : Transport) (rs : List (List Char))
    (s b sn : List Char) (hc : t.configured = true)
    (h : (validateEmailList rs).2 ≠ [] ∨ (validateEmailList rs).1 = []) :
    (sendEmail t rs s b sn).2 = [] ∧
    ((validateEmailList rs).2 ≠ [] →
      (sendEmail t rs s b sn).1 =
        Except.error (SendError.validationFailed (validationMessage (validateEmailList rs).2)) ∧
      ∀ er ∈ (validateEmailList rs).2,
        containsSub er (validationMessage (validateEmailList rs).2) = true) ∧
    ((validateEmailList rs).2 = [] →
      (sendEmail t rs s b sn).1 =
        Except.error (SendError.noValidRecipients (lc "No valid recipients found"))) := by
  have hmain : ∀ er ∈ (validateEmailList rs).2,
      containsSub er (validationMessage (validateEmailList rs).2) = true :=
    fun er hin => validationMessage_names (validateEmailList rs).2 er hin
  by_cases he : (validateEmailList rs).2 = []
  · have hv1 : (validateEmailList rs).1 = [] := by
      rcases h with hne | hnil
      · exact absurd he hne
      · exact hnil
    refine ⟨?_, fun hne => absurd he hne, fun _ => ?_⟩
    · simp [sendEmail, hc, he, hv1]
    · simp [sendEmail, hc, he, hv1]
  · have he2 : (validateEmailList rs).2.isEmpty = false := by
      cases hx : (validateEmailList rs).2 with
      | nil => exact absurd hx he
      | cons a as => rfl
    refine ⟨?_, fun _ => ⟨?_, hmain⟩, fun hnil => absurd hnil he⟩
    · simp [sendEmail, hc, he2]
    · simp [sendEmail, hc, he2]

/-- A transport used by the witnesses: configured, reachable, failing for
`a@x.com` and succeeding (with message id `id2`) for everyone else. -/
def sampleTransport : Transport :=
  { configured := true,
    user := lc "me@x.com",
    verify := Except.ok (),
    deliver := fun o =>
      if o.toAddr = lc "a@x.com" then Except.error (lc "boom")
      else Except.ok (lc "id2") }

/-- C4 witness: `["good@x.com", "not-an-email"]` produces a validation
error naming the invalid entry and zero transport calls. -/
theorem claim4_witness :
    ((validateEmailList [lc "good@x.com", lc "not-an-email"]).2 ≠ [] ∨
      (validateEmailList [lc "good@x.com", lc "not-an-email"]).1 = []) ∧
    (sendEmail sampleTransport [lc "good@x.com", lc "not-an-email"]
        (lc "S") (lc "B") (lc "Me")).2 = [] ∧
    (sendEmail sampleTransport [lc "good@x.com", lc "not-an-email"]
        (lc "S") (lc "B") (lc "Me")).1 =
      Except.error (SendError.validationFailed
        (validationMessage (validateEmailList [lc "good@x.com", lc "not-an-email"]).2)) ∧
    containsSub (lc "Invalid email format: not-an-email")
      (validationMessage (validateEmailList [lc "good@x.com", lc "not-an-email"]).2) = true := by
  have h := claim4_fail_fast sampleTransport [lc "good@x.com", lc "not-an-email"]
    (lc "S") (lc "B") (lc "Me") (by decide) (Or.inl (by decide))
  refine ⟨Or.inl (by decide), h.1, (h.2.1 (by decide)).1, ?_⟩
  exact (h.2.1 (by decide)).2 (lc "Invalid email format: not-an-email") (by decide)

/-- C3: with two valid (already-trimmed) recipients, a reachable transport
that fails for the first and succeeds for the second, `sendEmail` returns
normally with `successful = 1`, `failed = 1`, `totalRecipients = 2`, the
second recipient's entry in `results` and the first's in `failures`. -/
theorem claim3_mixed_outcome (t : Transport) (r1 r2 s b sn m e : List Char)
    (hc : t.configured = true)
    (hv : validateEmailList [r1, r2] = ([r1, r2], []))
    (hver : t.verify = Except.ok ())
    (h1 : t.deliver (mkOpts t sn s b r1) = Except.error e)
    (h2 : t.deliver (mkOpts t sn s b r2) = Except.ok m) :
    (sendEmail t [r1, r2] s b sn).1 = Except.ok
      { success := true, totalRecipients := 2, successful := 1, failed := 1,
        results := [{ email := r2, messageId := m }],
        failures := [{ email := r1, error := e }] } := by
  simp [sendEmail, hc, hv, hver, deliverLoop, h1, h2]

/-- C3 witness: `sampleTransport` with recipients `a@x.com` (fails) and
`b@y.com` (succeeds). -/
theorem claim3_witness :
    (sendEmail sampleTransport [lc "a@x.com", lc "b@y.com"]
        (lc "S") (lc "B") (lc "Me")).1 = Except.ok
      { success := true, totalRecipients := 2, successful := 1, failed := 1,
        results := [{ email := lc "b@y.com", messageId := lc "id2" }],
        failures := [{ email := lc "a@x.com", error := lc "boom" }] } :=
  claim3_mixed_outcome sampleTransport (lc "a@x.com") (lc "b@y.com")
    (lc "S") (lc "B") (lc "Me") (lc "id2") (lc "boom")
    (by decide) (by decide) (by rfl) (by rfl) (by rfl)

/-- The per-recipient loop produces exactly one outcome entry per
recipient. -/
theorem deliverLoop_length (t : Transport) (sn s b : List Char)
    (l : List (List Char)) :
    (deliverLoop t sn s b l).1.length + (deliverLoop t sn s b l).2.length = l.length := by
  induction l with
  | nil => rfl
  | cons e rest ih =>
    unfold deliverLoop
    cases t.deliver (mkOpts t sn s b e) <;> simp <;> omega

/-- C10: every report `sendEmail` returns satisfies
`totalRecipients = successful + failed`, `successful = results.length`,
`failed = failures.length`, and `totalRecipients` is the number of
recipients that passed validation. -/
theorem claim10_report_invariant (t : Transport) (rs : List (List Char))
    (s b sn : List Char) (rep : DeliveryReport)
    (h : (sendEmail t rs s b sn).1 = Except.ok rep) :
    rep.totalRecipients = rep.successful + rep.failed ∧
    rep.successful = rep.results.length ∧
    rep.failed = rep.failures.length ∧
    rep.totalRecipients = (validateEmailList rs).1.length := by
  simp only [sendEmail] at h
  cases hcfg : t.configured with
  | false => simp [hcfg] at h
  | true =>
    simp only [hcfg, Bool.not_true, Bool.false_eq_true, if_false] at h
    cases he : (validateEmailList rs).2.isEmpty with
    | false => simp [he] at h
    | true =>
      simp only [he, Bool.not_true, Bool.false_eq_true, if_false] at h
      cases hv : (validateEmailList rs).1.isEmpty with
      | true => simp [hv] at h
      | false =>
        simp only [hv, Bool.false_eq_true, if_false] at h
        cases hver : t.verify with
        | error e => simp [hver] at h
        | ok u =>
          simp only [hver] at h
          injection h with h2
          subst h2
          refine ⟨?_, rfl, rfl, rfl⟩
          exact (deliverLoop_length t sn s b (validateEmailList rs).1).symm

/-- C10 witness: the report of `sampleTransport` sending to `a@x.com`
(fails) and `b@y.com` (succeeds) satisfies the invariant. -/
theorem claim10_witness :
    (sendEmail sampleTransport [lc "a@x.com", lc "b@y.com"]
        (lc "S") (lc "B") (lc "Me")).1 = Except.ok
      { success := true, totalRecipients := 2, successful := 1, failed := 1,
        results := [{ email := lc "b@y.com", messageId := lc "id2" }],
        failures := [{ email := lc "a@x.com", error := lc "boom" }] } ∧
    ((2 : Nat) = 1 + 1 ∧ (1 : Nat) = 1 ∧ (1 : Nat) = 1 ∧
      (2 : Nat) = (validateEmailList [lc "a@x.com", lc "b@y.com"]).1.length) := by
  have hrep : (sendEmail sampleTransport [lc "a@x.com", lc "b@y.com"]
      (lc "S") (lc "B") (lc "Me")).1 = Except.ok
        { success := true, totalRecipients := 2, successful := 1, failed := 1,
          results := [{ email := lc "b@y.com", messageId := lc "id2" }],
          failures := [{ email := lc "a@x.com", error := lc "boom" }] } := by rfl
  exact ⟨hrep, claim10_report_invariant sampleTransport [lc "a@x.com", lc "b@y.com"]
    (lc "S") (lc "B") (lc "Me") _ hrep⟩
